import Mathlib

/-
Verification development for filesyncer (src/filesyncer.py), a remote-to-local
file synchronizer.  The Python program is shallowly embedded: the local
filesystem is threaded explicitly as a map from paths to optional byte
contents, the network is an oracle giving each URL's fetch outcome, and the
MD5 digest is an abstract digest function passed as a parameter.  The library
routines the program's observable behaviour depends on (difflib.unified_diff
with its SequenceMatcher, str.splitlines, bytes.decode with errors ignored)
are translated from their reference semantics.
-/

/-- Byte sequences are lists of naturals, one per byte. -/
abbrev Bytes := List Nat

/-- The local filesystem: a path is mapped to the file's bytes, or none when
no file exists at that path (the FileNotFoundError case). -/
abbrev FS := String → Option Bytes

/-- Whether a byte is a UTF-8 continuation byte (0x80..0xBF). -/
def isContByte (b : Nat) : Bool := 0x80 ≤ b && b ≤ 0xBF

/-- Characters decoded from a UTF-8 byte stream the way Python's
bytes.decode("utf-8", errors="ignore") does: well-formed sequences become
characters, ill-formed input is dropped, skipping the maximal valid prefix of
a truncated or invalid sequence, as CPython's ignore handler does. -/
def utf8_ignore_chars (fuel : Nat) (l : List Nat) : List Char :=
  match fuel, l with
  | 0, _ => []
  | _, [] => []
  | fuel + 1, b :: rest =>
    if b < 0x80 then Char.ofNat b :: utf8_ignore_chars fuel rest
    else if 0xC2 ≤ b && b ≤ 0xDF then
      match rest with
      | [] => []
      | b2 :: rest2 =>
        if isContByte b2 then
          Char.ofNat ((b - 0xC0) * 0x40 + (b2 - 0x80)) :: utf8_ignore_chars fuel rest2
        else utf8_ignore_chars fuel (b2 :: rest2)
    else if 0xE0 ≤ b && b ≤ 0xEF then
      match rest with
      | [] => []
      | b2 :: rest2 =>
        if (b = 0xE0 && 0xA0 ≤ b2 && b2 ≤ 0xBF) ||
           (b = 0xED && 0x80 ≤ b2 && b2 ≤ 0x9F) ||
           (b ≠ 0xE0 && b ≠ 0xED && isContByte b2) then
          match rest2 with
          | [] => []
          | b3 :: rest3 =>
            if isContByte b3 then
              Char.ofNat ((b - 0xE0) * 0x1000 + (b2 - 0x80) * 0x40 + (b3 - 0x80)) ::
                utf8_ignore_chars fuel rest3
            else utf8_ignore_chars fuel (b3 :: rest3)
        else utf8_ignore_chars fuel (b2 :: rest2)
    else if 0xF0 ≤ b && b ≤ 0xF4 then
      match rest with
      | [] => []
      | b2 :: rest2 =>
        if (b = 0xF0 && 0x90 ≤ b2 && b2 ≤ 0xBF) ||
           (b = 0xF4 && 0x80 ≤ b2 && b2 ≤ 0x8F) ||
           (b ≠ 0xF0 && b ≠ 0xF4 && isContByte b2) then
          match rest2 with
          | [] => []
          | b3 :: rest3 =>
            if isContByte b3 then
              match rest3 with
              | [] => []
              | b4 :: rest4 =>
                if isContByte b4 then
                  Char.ofNat ((b - 0xF0) * 0x40000 + (b2 - 0x80) * 0x1000 +
                    (b3 - 0x80) * 0x40 + (b4 - 0x80)) :: utf8_ignore_chars fuel rest4
                else utf8_ignore_chars fuel (b4 :: rest4)
            else utf8_ignore_chars fuel (b3 :: rest3)
        else utf8_ignore_chars fuel (b2 :: rest2)
    else utf8_ignore_chars fuel rest

/-- Python bytes.decode("utf-8", errors="ignore") as a String.  The fuel only
serves the recursion: every step consumes at least one byte, so a fuel equal
to the byte count is never exhausted. -/
def decode_utf8_ignore (bs : Bytes) : String := String.mk (utf8_ignore_chars bs.length bs)

/-- The line-boundary characters recognised by Python's str.splitlines. -/
def isLineBreakChar (c : Char) : Bool :=
  c = '\n' || c = '\r' || c = '\x0b' || c = '\x0c' ||
  c = Char.ofNat 0x1c || c = Char.ofNat 0x1d || c = Char.ofNat 0x1e ||
  c = Char.ofNat 0x85 || c = Char.ofNat 0x2028 || c = Char.ofNat 0x2029

/-- Worker for str.splitlines(keepends=True): acc holds the current line's
characters in reverse; a CR immediately followed by LF ends one line. -/
def splitlines_chars : List Char → List Char → List String
  | [], acc => if acc.isEmpty then [] else [String.mk acc.reverse]
  | '\r' :: '\n' :: rest, acc =>
    String.mk (acc.reverse ++ ['\r', '\n']) :: splitlines_chars rest []
  | c :: rest, acc =>
    if isLineBreakChar c then String.mk (acc.reverse ++ [c]) :: splitlines_chars rest []
    else splitlines_chars rest (c :: acc)

/-- Python str.splitlines(keepends=True). -/
def splitlines_keepends (s : String) : List String := splitlines_chars s.data []

/-- os.path.basename for slash-separated paths: the part after the last
separator. -/
def basename (p : String) : String :=
  String.mk ((p.data.reverse.takeWhile (fun c => c != '/')).reverse)

/-- Python list slicing l[i:j] for non-negative bounds. -/
def pyslice {α : Type} (l : List α) (i j : Nat) : List α := (l.drop i).take (j - i)

/-
difflib.  The program diffs via difflib.unified_diff, whose engine is
SequenceMatcher with isjunk = None; the junk set is therefore empty, so the
junk-extension loops of find_longest_match never fire and only the autojunk
popularity heuristic (sequences of at least 200 lines) can thin the index
table.  All of the following is translated from the difflib reference
implementation.
-/

/-- SequenceMatcher's b2j table: the ascending list of indices at which a
line occurs in b, emptied for popular lines when autojunk applies. -/
def b2j (b : List String) (s : String) : List Nat :=
  let idxs := (List.range b.length).filter (fun j => b.get? j == some s)
  if 200 ≤ b.length ∧ idxs.length > b.length / 100 + 1 then [] else idxs

/-- The running best match of find_longest_match. -/
structure BestMatch where
  besti : Nat
  bestj : Nat
  bestsize : Nat
deriving Repr, DecidableEq

/-- One row of find_longest_match's scan: for each occurrence j of a[i] in
the window, the run length k extends the previous row's run ending at j-1
(Python reads j2len.get(j-1, 0); at j = 0 the key -1 is absent, giving 0),
and a strictly larger k updates the best match.  Returns the new best and
the new row's run-length table. -/
def flm_row (j2len : Nat → Nat) (i : Nat) (js : List Nat) (best : BestMatch) :
    BestMatch × (Nat → Nat) :=
  js.foldl
    (fun st j =>
      let k := (if j = 0 then 0 else j2len (j - 1)) + 1
      let nj : Nat → Nat := fun x => if x = j then k else st.2 x
      let best2 := if k > st.1.bestsize then BestMatch.mk (i + 1 - k) (j + 1 - k) k else st.1
      (best2, nj))
    (best, fun _ => 0)

/-- The scan phase of find_longest_match over rows alo..ahi-1.  Python skips
occurrences below blo and breaks at the first at or above bhi; as the
occurrence list is ascending, that equals filtering to the window. -/
def flm_scan (a b : List String) (alo ahi blo bhi : Nat) : BestMatch :=
  ((List.range' alo (ahi - alo)).foldl
    (fun st i =>
      let js := (b2j b (a.getD i "")).filter (fun j => decide (blo ≤ j) && decide (j < bhi))
      flm_row st.2 i js st.1)
    (BestMatch.mk alo blo 0, fun _ => 0)).1

/-- First extension loop of find_longest_match: grow the match leftwards
while the adjacent lines are equal (the junk guard is vacuous; the indices
accessed are always in range in reachable calls, so the default of getD is
never compared). -/
def flm_extendLeft (a b : List String) (alo blo : Nat) :
    Nat → Nat → Nat → Nat → Nat × Nat × Nat
  | 0, besti, bestj, bestsize => (besti, bestj, bestsize)
  | fuel + 1, besti, bestj, bestsize =>
    if alo < besti ∧ blo < bestj ∧ a.getD (besti - 1) "" = b.getD (bestj - 1) "" then
      flm_extendLeft a b alo blo fuel (besti - 1) (bestj - 1) (bestsize + 1)
    else (besti, bestj, bestsize)

/-- Second extension loop of find_longest_match: grow the match rightwards
while the adjacent lines are equal. -/
def flm_extendRight (a b : List String) (ahi bhi besti bestj : Nat) :
    Nat → Nat → Nat
  | 0, bestsize => bestsize
  | fuel + 1, bestsize =>
    if besti + bestsize < ahi ∧ bestj + bestsize < bhi ∧
        a.getD (besti + bestsize) "" = b.getD (bestj + bestsize) "" then
      flm_extendRight a b ahi bhi besti bestj fuel (bestsize + 1)
    else bestsize

/-- difflib.SequenceMatcher.find_longest_match on the windows a[alo:ahi] and
b[blo:bhi] (isjunk None, so the two junk-extension loops never run).  The
fuels of the two extension loops only bound their recursion: the left loop
steps besti down towards alo, so besti steps suffice, and the right loop
stops once besti + bestsize reaches ahi, so ahi steps suffice. -/
def find_longest_match (a b : List String) (alo ahi blo bhi : Nat) : Nat × Nat × Nat :=
  let best := flm_scan a b alo ahi blo bhi
  let l := flm_extendLeft a b alo blo best.besti best.besti best.bestj best.bestsize
  (l.1, l.2.1, flm_extendRight a b ahi bhi l.1 l.2.1 ahi l.2.2)

/-- The work-queue loop of get_matching_blocks.  Python keeps a list and
pops from the back; the head of this list plays that back, so the two
subranges are pushed in swapped order.  Each popped range spawns subranges
whose sizes sum to strictly less than its own, so a fuel of
a.length + b.length + 1 (the total starting size plus one) is never
exhausted. -/
def mb_loop (a b : List String) : Nat → List (Nat × Nat × Nat × Nat) → List (Nat × Nat × Nat)
  | 0, _ => []
  | _ + 1, [] => []
  | fuel + 1, (alo, ahi, blo, bhi) :: qs =>
    let m := find_longest_match a b alo ahi blo bhi
    let i := m.1
    let j := m.2.1
    let k := m.2.2
    if k ≠ 0 then
      let lower := if alo < i ∧ blo < j then [(alo, i, blo, j)] else []
      let upper := if i + k < ahi ∧ j + k < bhi then [(i + k, ahi, j + k, bhi)] else []
      (i, j, k) :: mb_loop a b fuel (upper ++ lower ++ qs)
    else mb_loop a b fuel qs

/-- Ascending lexicographic order on matching-block triples, the order
Python's tuple sort uses. -/
def block_le (x y : Nat × Nat × Nat) : Bool :=
  decide (x.1 < y.1) ||
  (x.1 == y.1 && (decide (x.2.1 < y.2.1) || (x.2.1 == y.2.1 && decide (x.2.2 ≤ y.2.2))))

def insert_block (x : Nat × Nat × Nat) : List (Nat × Nat × Nat) → List (Nat × Nat × Nat)
  | [] => [x]
  | y :: ys => if block_le x y then x :: y :: ys else y :: insert_block x ys

/-- matching_blocks.sort(): a stable ascending sort (the found blocks are
pairwise distinct, so any correct sort yields Python's result). -/
def sort_blocks : List (Nat × Nat × Nat) → List (Nat × Nat × Nat)
  | [] => []
  | x :: xs => insert_block x (sort_blocks xs)

/-- The second phase of get_matching_blocks: merge adjacent blocks, keeping
a pending block (i1, j1, k1) that grows while successors touch it exactly. -/
def collapse_blocks : Nat × Nat × Nat → List (Nat × Nat × Nat) → List (Nat × Nat × Nat)
  | (i1, j1, k1), [] => if k1 ≠ 0 then [(i1, j1, k1)] else []
  | (i1, j1, k1), (i2, j2, k2) :: rest =>
    if i1 + k1 = i2 ∧ j1 + k1 = j2 then collapse_blocks (i1, j1, k1 + k2) rest
    else (if k1 ≠ 0 then [(i1, j1, k1)] else []) ++ collapse_blocks (i2, j2, k2) rest

/-- difflib.SequenceMatcher.get_matching_blocks, ending in the sentinel
(len(a), len(b), 0). -/
def get_matching_blocks (a b : List String) : List (Nat × Nat × Nat) :=
  let raw := mb_loop a b (a.length + b.length + 1) [(0, a.length, 0, b.length)]
  collapse_blocks (0, 0, 0) (sort_blocks raw) ++ [(a.length, b.length, 0)]

/-- One entry of SequenceMatcher.get_opcodes: a tag and the ranges
a[i1:i2], b[j1:j2] it covers. -/
structure Opcode where
  tag : String
  i1 : Nat
  i2 : Nat
  j1 : Nat
  j2 : Nat
deriving Repr, DecidableEq, Inhabited

/-- difflib.SequenceMatcher.get_opcodes: walk the matching blocks with a
cursor, tagging the gap before each block and then the block itself. -/
def opcodes_of_blocks : Nat → Nat → List (Nat × Nat × Nat) → List Opcode
  | _, _, [] => []
  | i, j, (ai, bj, size) :: rest =>
    let tag := if i < ai ∧ j < bj then "replace"
      else if i < ai then "delete"
      else if j < bj then "insert"
      else ""
    (if tag ≠ "" then [Opcode.mk tag i ai j bj] else []) ++
    (if size ≠ 0 then [Opcode.mk "equal" ai (ai + size) bj (bj + size)] else []) ++
    opcodes_of_blocks (ai + size) (bj + size) rest

def get_opcodes (a b : List String) : List Opcode :=
  opcodes_of_blocks 0 0 (get_matching_blocks a b)

/-- get_grouped_opcodes' trim of a leading equal opcode to the last n lines
of its range. -/
def trim_head (n : Nat) : List Opcode → List Opcode
  | [] => []
  | c :: rest =>
    (if c.tag = "equal" then
      Opcode.mk c.tag (max c.i1 (c.i2 - n)) c.i2 (max c.j1 (c.j2 - n)) c.j2
    else c) :: rest

/-- get_grouped_opcodes' trim of a trailing equal opcode to the first n
lines of its range. -/
def trim_last (n : Nat) (codes : List Opcode) : List Opcode :=
  match codes.reverse with
  | [] => []
  | c :: rest =>
    ((if c.tag = "equal" then
        Opcode.mk c.tag c.i1 (min c.i2 (c.i1 + n)) c.j1 (min c.j2 (c.j1 + n))
      else c) :: rest).reverse

/-- The grouping loop of get_grouped_opcodes: an equal run wider than two
context windows closes the current group (keeping n context lines on each
side); a final group consisting of a single equal opcode is dropped. -/
def grouped_loop (n : Nat) : List Opcode → List Opcode → List (List Opcode) → List (List Opcode)
  | [], group, acc =>
    if group ≠ [] ∧ ¬(group.length = 1 ∧ (group.headD default).tag = "equal") then
      acc ++ [group]
    else acc
  | c :: rest, group, acc =>
    if c.tag = "equal" ∧ c.i2 - c.i1 > n + n then
      grouped_loop n rest
        [Opcode.mk c.tag (max c.i1 (c.i2 - n)) c.i2 (max c.j1 (c.j2 - n)) c.j2]
        (acc ++ [group ++ [Opcode.mk c.tag c.i1 (min c.i2 (c.i1 + n)) c.j1 (min c.j2 (c.j1 + n))]])
    else grouped_loop n rest (group ++ [c]) acc

/-- difflib.SequenceMatcher.get_grouped_opcodes with context n. -/
def get_grouped_opcodes (n : Nat) (a b : List String) : List (List Opcode) :=
  let codes := get_opcodes a b
  let codes := if codes = [] then [Opcode.mk "equal" 0 1 0 1] else codes
  grouped_loop n (trim_last n (trim_head n codes)) [] []

/-- difflib._format_range_unified. -/
def format_range_unified (start stop : Nat) : String :=
  let beginning := start + 1
  let length := stop - start
  if length = 1 then toString beginning
  else toString (if length = 0 then beginning - 1 else beginning) ++ "," ++ toString length

/-- The lines unified_diff emits for one opcode: context lines carry a
space, removed lines a minus, added lines a plus. -/
def emit_opcode (a b : List String) (op : Opcode) : List String :=
  if op.tag = "equal" then (pyslice a op.i1 op.i2).map (fun line => " " ++ line)
  else
    (if op.tag = "replace" ∨ op.tag = "delete" then
      (pyslice a op.i1 op.i2).map (fun line => "-" ++ line)
    else []) ++
    (if op.tag = "replace" ∨ op.tag = "insert" then
      (pyslice b op.j1 op.j2).map (fun line => "+" ++ line)
    else [])

/-- One group's hunk: its range header line, then its opcodes' lines. -/
def emit_group (a b : List String) (g : List Opcode) : List String :=
  match g with
  | [] => []
  | first :: _ =>
    let last := g.getLastD first
    ("@@ -" ++ format_range_unified first.i1 last.i2 ++ " +" ++
      format_range_unified first.j1 last.j2 ++ " @@\n") ::
    (g.map (emit_opcode a b)).flatten

/-- difflib.unified_diff with the default context (n = 3), line terminator
and empty dates, as list(...) materialises it: the two file-header lines
before the first hunk, then each group's hunk. -/
def unified_diff (a b : List String) (fromfile tofile : String) : List String :=
  match get_grouped_opcodes 3 a b with
  | [] => []
  | gs => ("--- " ++ fromfile ++ "\n") :: ("+++ " ++ tofile ++ "\n") ::
      (gs.map (emit_group a b)).flatten

/-
The program's own functions (src/filesyncer.py).
-/

/-- One sync target, as a record of the config file's files entries
(name, url, local_path). -/
structure Target where
  name : String
  url : String
  local_path : String
deriving Repr, DecidableEq

/-- The result dict built by update_file (lines 301-306): name, status,
message and the diff line list. -/
structure SyncResult where
  name : String
  status : String
  message : String
  diff : List String
deriving Repr, DecidableEq

/-- One entry of the global download_progress table (lines 200-205). -/
structure ProgressEntry where
  total : Nat
  downloaded : Nat
  finished : Bool
deriving Repr, DecidableEq

/-- The global download_progress table, keyed by file name. -/
abbrev Progress := List (String × ProgressEntry)

/-- calculate_md5 (lines 177-186): the digest of the file at the path, and
"" when no file exists there (FileNotFoundError).  md5 abstracts
hashlib.md5(contents).hexdigest(); hashing in 4096-byte chunks digests the
same bytes. -/
def calculate_md5 (md5 : Bytes → String) (fs : FS) (file_path : String) : String :=
  match fs file_path with
  | none => ""
  | some content => md5 content

/-- compare_files (lines 269-293).  Reading a missing file raises
FileNotFoundError, answered with the single placeholder line; equal bytes
answer no change; otherwise the decode-split-diff block runs, and dop is
that block's outcome: ok with its lines, or error with the message of an
exception raised inside it, which the final handler turns into False and a
single explanatory line. -/
def compare_files (dop : Bytes → Bytes → Except String (List String)) (fs : FS)
    (old_file : String) (new_content : Bytes) : Bool × List String :=
  match fs old_file with
  | none => (true, ["文件是新的"])
  | some old_content =>
    if old_content = new_content then (false, [])
    else
      match dop old_content new_content with
      | Except.ok diff => (true, diff)
      | Except.error e => (false, ["比较文件时出错: " ++ e])

/-- The decode-split-diff block as update_file's callers exercise it for a
given path: the outcome of lines 279-287 of compare_files.  The old-file
path fixes the a/ and b/ header names. -/
abbrev DiffOracle := String → Bytes → Bytes → Except String (List String)

/-- The block compare_files actually runs (lines 278-289): decode both byte
strings as UTF-8 ignoring errors, split into lines keeping the endings, and
take the unified diff with a/ and b/ basename headers. -/
def filesyncer_diff : DiffOracle := fun old_file old_content new_content =>
  Except.ok (unified_diff
    (splitlines_keepends (decode_utf8_ignore old_content))
    (splitlines_keepends (decode_utf8_ignore new_content))
    ("a/" ++ basename old_file) ("b/" ++ basename old_file))

/-- A completed write of the fetched bytes to the local path. -/
def fs_write (fs : FS) (path : String) (content : Bytes) : FS :=
  fun p => if p = path then some content else fs p

/-- The write step of update_file (lines 334-336): os.makedirs on the
path's directory part, then opening the file and writing the bytes.  Any of
these may raise — makedirs('') for a local_path with no directory part, a
permission error, a full disk — and a failure may leave a partial write.
The oracle returns the filesystem state the attempt left behind together
with success or the raised exception's message. -/
abbrev WriteOracle := FS → String → Bytes → FS × Except String Unit

/-- A write that succeeds, leaving the full content at the path. -/
def write_ok : WriteOracle :=
  fun fs path content => (fs_write fs path content, Except.ok ())

/-- A write that raises before touching the file (as makedirs('') does for
a bare file name). -/
def write_fail (e : String) : WriteOracle :=
  fun fs _ _ => (fs, Except.error e)

/-- update_file (lines 295-342).  fetch gives the outcome of
urllib.request.urlopen(url).read() for a URL, error carrying the raised
exception's message; the local digest is read first, exactly as in the
source.  The fields of the result dict start as name/unknown/empty/no-diff
(lines 301-306) and are overwritten on the way out.  Both the fetch and the
write step can raise; either raise reaches the same final handler (lines
338-340), which overwrites status and message with the error form — after a
write failure the diff set at line 324 stays on the result. -/
def update_file (md5 : Bytes → String) (dop : DiffOracle) (wr : WriteOracle)
    (fetch : String → Except String Bytes) (file_info : Target) (fs : FS) :
    SyncResult × FS :=
  let result := SyncResult.mk file_info.name "unknown" "" []
  let local_md5 := calculate_md5 md5 fs file_info.local_path
  match fetch file_info.url with
  | Except.error e => ({result with status := "error", message := "更新失败: " ++ e}, fs)
  | Except.ok new_content =>
    let new_md5 := md5 new_content
    if local_md5 = new_md5 then
      ({result with status := "unchanged", message := "文件无变化"}, fs)
    else
      let diff_lines :=
        (compare_files (dop file_info.local_path) fs file_info.local_path new_content).2
      let result := {result with diff := diff_lines}
      let result :=
        if local_md5 = "" then
          {result with status := "new", message := "新文件 (MD5: " ++ new_md5 ++ ")"}
        else
          {result with status := "updated", message := "文件已更新 (旧MD5: " ++ local_md5 ++ ", 新MD5: " ++ new_md5 ++ ")"}
      match wr fs file_info.local_path new_content with
      | (fs2, Except.ok _) => (result, fs2)
      | (fs2, Except.error e) =>
        ({result with status := "error", message := "更新失败: " ++ e}, fs2)

/-- The state a whole run threads: the collected results, the filesystem,
and the global download_progress table. -/
structure RunState where
  results : List SyncResult
  fs : FS
  prog : Progress

/-- The executor block of main (lines 404-421): one update_file task per
target, every produced result collected into the run record.  update_file
catches every exception itself, so the per-future exception arm (lines
420-421) never fires and no result is dropped.  Completion order is
modelled as submission order.  download_progress is global state threaded
through the run: update_file never references it, so it passes through
untouched. -/
def run_sync (md5 : Bytes → String) (dop : DiffOracle) (wr : WriteOracle)
    (fetch : String → Except String Bytes) :
    List Target → FS → Progress → RunState
  | [], fs, prog => RunState.mk [] fs prog
  | t :: ts, fs, prog =>
    let step := update_file md5 dop wr fetch t fs
    let rest := run_sync md5 dop wr fetch ts step.2 prog
    RunState.mk (step.1 :: rest.results) rest.fs rest.prog

/-- One run's record as appended to the history (lines 399-402). -/
structure RunRecord where
  timestamp : String
  files : List SyncResult
deriving Repr, DecidableEq

/-- The append-and-trim step of main (lines 423-427): append the new run
record, then keep only the last 10 entries whenever the log holds more than
10. -/
def append_history (history : List RunRecord) (record : RunRecord) : List RunRecord :=
  let h := history ++ [record]
  if h.length > 10 then h.drop (h.length - 10) else h

/-- The per-status tallies of main's history summary (line 441). -/
structure StatusCounts where
  unchanged : Nat
  new : Nat
  updated : Nat
  error : Nat
deriving Repr, DecidableEq

/-- One iteration of the tallying loop (lines 442-443):
status_counts[file["status"]] += 1, which raises KeyError for any status
outside the four prepared keys. -/
def bump_status (c : StatusCounts) (s : String) : Except String StatusCounts :=
  if s = "unchanged" then Except.ok {c with unchanged := c.unchanged + 1}
  else if s = "new" then Except.ok {c with new := c.new + 1}
  else if s = "updated" then Except.ok {c with updated := c.updated + 1}
  else if s = "error" then Except.ok {c with error := c.error + 1}
  else Except.error ("KeyError: " ++ s)

/-- The tallying loop over one record's files, error being an uncaught
KeyError. -/
def count_statuses : List SyncResult → StatusCounts → Except String StatusCounts
  | [], c => Except.ok c
  | r :: rs, c =>
    match bump_status c r.status with
    | Except.ok c2 => count_statuses rs c2
    | Except.error e => Except.error e

/-
Config and history loading.  These routines interact with files through
open + json.load, whose outcome for the named file is the routines' real
input: a missing file, a syntax error, or a parsed JSON value.
-/

/-- JSON values as json.load yields them. -/
inductive JValue where
  | null : JValue
  | jbool : Bool → JValue
  | jnum : Int → JValue
  | jstr : String → JValue
  | jarr : List JValue → JValue
  | jobj : List (String × JValue) → JValue
deriving Repr

/-- Key lookup in a JSON object's fields. -/
def jlookup (fields : List (String × JValue)) (key : String) : Option JValue :=
  match fields with
  | [] => none
  | (k, v) :: rest => if k = key then some v else jlookup rest key

/-- Whether a JSON value is an object carrying the given key. -/
def jvalue_has_key (v : JValue) (key : String) : Bool :=
  match v with
  | JValue.jobj fields => (jlookup fields key).isSome
  | _ => false

/-- The outcome of opening a file and json.load-ing it. -/
inductive ReadOutcome where
  | missing : ReadOutcome
  | badJson : String → ReadOutcome
  | parsed : JValue → ReadOutcome

/-- The observable behaviour of a loading routine: the returned value or
the uncaught exception it lets escape, the diagnostics it prints, and the
files it writes. -/
structure IOOut where
  ret : Except String JValue
  prints : List String
  writes : List (String × JValue)

/-- The built-in default target list of load_config (lines 52-63). -/
def default_files : JValue :=
  JValue.jarr
    [JValue.jobj
       [("name", JValue.jstr "示例文件1"),
        ("url", JValue.jstr "https://httpbin.org/uuid"),
        ("local_path", JValue.jstr "files/file1.txt")],
     JValue.jobj
       [("name", JValue.jstr "示例文件2"),
        ("url", JValue.jstr "https://httpbin.org/user-agent"),
        ("local_path", JValue.jstr "files/file2.txt")]]

/-- load_config (lines 37-80).  An object carrying files answers that entry
verbatim; a bare array answers itself; any other parsed value raises
ValueError, and that raise is NOT caught: the handlers cover only
FileNotFoundError and json.JSONDecodeError (a subclass of ValueError, which
does not catch its parent class).  A missing file prints, writes the
default template (the write modelled as succeeding) and answers the default
list; a JSON syntax error prints and answers the empty list. -/
def load_config (input : ReadOutcome) (config_file : String) : IOOut :=
  match input with
  | ReadOutcome.parsed data =>
    match data with
    | JValue.jobj fields =>
      match jlookup fields "files" with
      | some fv => IOOut.mk (Except.ok fv) [] []
      | none => IOOut.mk (Except.error "ValueError: 配置文件格式不正确") [] []
    | JValue.jarr items => IOOut.mk (Except.ok (JValue.jarr items)) [] []
    | _ => IOOut.mk (Except.error "ValueError: 配置文件格式不正确") [] []
  | ReadOutcome.missing =>
    IOOut.mk (Except.ok default_files)
      ["配置文件 " ++ config_file ++ " 未找到，使用默认配置",
       "已创建默认配置文件 " ++ config_file]
      [(config_file, JValue.jobj [("files", default_files)])]
  | ReadOutcome.badJson e =>
    IOOut.mk (Except.ok (JValue.jarr []))
      ["配置文件 " ++ config_file ++ " 格式错误: " ++ e] []

/-- load_sync_history: the second definition of that name (lines 137-149),
which shadows the earlier one (lines 96-107) and is the definition main
calls.  A successfully parsed JSON value is returned verbatim, whatever its
shape; a missing file yields the empty log and writes it out (through
save_sync_history, lines 151-159, modelled as succeeding); a JSON syntax
error prints a diagnostic and yields the empty log. -/
def load_sync_history (input : ReadOutcome) (history_file : String) : IOOut :=
  match input with
  | ReadOutcome.parsed v => IOOut.mk (Except.ok v) [] []
  | ReadOutcome.missing =>
    IOOut.mk (Except.ok (JValue.jobj [("history", JValue.jarr [])])) []
      [(history_file, JValue.jobj [("history", JValue.jarr [])])]
  | ReadOutcome.badJson e =>
    IOOut.mk (Except.ok (JValue.jobj [("history", JValue.jarr [])]))
      ["历史记录文件 " ++ history_file ++ " 格式错误: " ++ e] []

/-
Readings of the claims' own vocabulary, for comparison against the code.
-/

/-- The number of diff lines whose first character is a plus sign. -/
def countPlus (lines : List String) : Nat :=
  lines.countP (fun line => line.data.head? == some '+')

/-- The claim's counting read literally: the number of positions of new
holding a line other than the one old holds at the same position. -/
def spec_positional_changed_count (old new : List String) : Nat :=
  (List.range new.length).countP (fun i => old.get? i != new.get? i)

/-- The new-side line count an opcode contributes as plus-prefixed lines:
its b-range for insert and replace opcodes, nothing otherwise. -/
def opcode_plus_lines (b : List String) (op : Opcode) : Nat :=
  if op.tag = "replace" ∨ op.tag = "insert" then (pyslice b op.j1 op.j2).length else 0

/-- Total plus-contribution of a list of opcodes. -/
def sum_plus_lines (b : List String) (ops : List Opcode) : Nat :=
  (ops.map (opcode_plus_lines b)).sum

/-- Total plus-contribution of grouped opcodes. -/
def sum_plus_lines_grouped (b : List String) (gs : List (List Opcode)) : Nat :=
  (gs.map (sum_plus_lines b)).sum

/-
Concrete fixtures used by the closed theorems below.
-/

/-- A concrete stand-in digest for hashlib.md5(...).hexdigest(): injective
on byte strings and never empty, like the 32-character hex digest. -/
def md5_model (bs : Bytes) : String :=
  "h" ++ String.intercalate "," (bs.map toString)

/-- An empty filesystem. -/
def fs_empty : FS := fun _ => none

/-- A filesystem holding a single file. -/
def fs_single (path : String) (content : Bytes) : FS :=
  fun p => if p = path then some content else none

/-- A network where every URL serves the same bytes. -/
def fetch_const (content : Bytes) : String → Except String Bytes :=
  fun _ => Except.ok content

/-- A network where every fetch raises. -/
def fetch_fail (e : String) : String → Except String Bytes :=
  fun _ => Except.error e

/-- A decode-split-diff block that raises. -/
def diff_raise (e : String) : Bytes → Bytes → Except String (List String) :=
  fun _ _ => Except.error e

/-- A sample target. -/
def target_A : Target := Target.mk "A" "http://x/a" "f/a.txt"

/-- A second sample target. -/
def target_B : Target := Target.mk "B" "http://x/b" "f/b.txt"

/-- A target whose local_path has no directory part: for it, the write step
raises, because os.path.dirname gives the empty string and makedirs on the
empty string raises FileNotFoundError. -/
def target_C : Target := Target.mk "C" "http://x/c" "c.txt"

/-- The write outcome update_file meets on target_C. -/
def write_fail_nodir : WriteOracle :=
  write_fail "[Errno 2] No such file or directory: ''"

/-- A network failing for target A's URL and serving bytes elsewhere. -/
def fetch_mixed : String → Except String Bytes :=
  fun u => if u = "http://x/a" then Except.error "boom" else Except.ok [104]

/-- An empty run record with the given timestamp, for history fixtures. -/
def mk_rec (ts : String) : RunRecord := RunRecord.mk ts []

/-- A history log holding exactly 10 distinct records. -/
def hist10 : List RunRecord :=
  [mk_rec "t0", mk_rec "t1", mk_rec "t2", mk_rec "t3", mk_rec "t4",
   mk_rec "t5", mk_rec "t6", mk_rec "t7", mk_rec "t8", mk_rec "t9"]

/-- A decode-and-diff block raising for every input, as a DiffOracle. -/
def diff_oracle_raise : DiffOracle := fun _ _ _ => Except.error "oracle boom"

/-
Shared helper lemmas.
-/

/-- Appending cannot empty a nonempty string. -/
theorem append_ne_empty_left (s t : String) (h : s.length ≠ 0) : s ++ t ≠ "" := by
  intro heq
  have h2 := congrArg String.length heq
  rw [String.length_append] at h2
  have h3 : ("" : String).length = 0 := rfl
  omega

/-- Length form of the previous fact, for iterated appends. -/
theorem length_append_ne_zero (s t : String) (h : s.length ≠ 0) : (s ++ t).length ≠ 0 := by
  rw [String.length_append]
  omega

/-- The modelled digest is never the empty string, like a real hex digest. -/
theorem md5_model_ne (bs : Bytes) : md5_model bs ≠ "" := by
  apply append_ne_empty_left
  decide

/-- update_file keeps the target's name on the result. -/
theorem update_file_name (md5 : Bytes → String) (dop : DiffOracle) (wr : WriteOracle)
    (fetch : String → Except String Bytes) (t : Target) (fs : FS) :
    ((update_file md5 dop wr fetch t fs).1).name = t.name := by
  unfold update_file
  cases fetch t.url with
  | error e => rfl
  | ok new_content =>
    dsimp only []
    split
    · rfl
    · rcases hwr : wr fs t.local_path new_content with ⟨fs2, wres⟩
      cases wres <;> dsimp only [] <;> split <;> rfl

/-- update_file always leaves one of the four final statuses on the result. -/
theorem update_file_status_mem (md5 : Bytes → String) (dop : DiffOracle) (wr : WriteOracle)
    (fetch : String → Except String Bytes) (t : Target) (fs : FS) :
    ((update_file md5 dop wr fetch t fs).1).status = "unchanged" ∨
    ((update_file md5 dop wr fetch t fs).1).status = "new" ∨
    ((update_file md5 dop wr fetch t fs).1).status = "updated" ∨
    ((update_file md5 dop wr fetch t fs).1).status = "error" := by
  unfold update_file
  cases fetch t.url with
  | error e => right; right; right; rfl
  | ok new_content =>
    dsimp only []
    split
    · left; rfl
    · rcases hwr : wr fs t.local_path new_content with ⟨fs2, wres⟩
      cases wres with
      | ok u =>
        dsimp only []
        split
        · right; left; rfl
        · right; right; left; rfl
      | error e2 => right; right; right; rfl

/-- update_file always writes a nonempty message. -/
theorem update_file_message_ne (md5 : Bytes → String) (dop : DiffOracle) (wr : WriteOracle)
    (fetch : String → Except String Bytes) (t : Target) (fs : FS) :
    ((update_file md5 dop wr fetch t fs).1).message ≠ "" := by
  unfold update_file
  cases fetch t.url with
  | error e => exact append_ne_empty_left _ _ (by decide)
  | ok new_content =>
    dsimp only []
    split
    · exact (by decide : ("文件无变化" : String) ≠ "")
    · rcases hwr : wr fs t.local_path new_content with ⟨fs2, wres⟩
      cases wres with
      | ok u =>
        dsimp only []
        split
        · exact append_ne_empty_left _ _ (length_append_ne_zero _ _ (by decide))
        · exact append_ne_empty_left _ _ (length_append_ne_zero _ _
            (length_append_ne_zero _ _ (length_append_ne_zero _ _ (by decide))))
      | error e2 => exact append_ne_empty_left _ _ (by decide)

/-- A status among the four prepared keys is tallied without a KeyError. -/
theorem bump_status_ok (c : StatusCounts) (s : String)
    (h : s = "unchanged" ∨ s = "new" ∨ s = "updated" ∨ s = "error") :
    ∃ c2, bump_status c s = Except.ok c2 := by
  rcases h with h | h | h | h <;> subst h <;> simp [bump_status]

/-
The claims.
-/

/-- C1: for a target whose remote fetch raises, update_file returns an
outcome with the error status carrying the cause message, returns the
filesystem exactly as given (the local file keeps the content it had), and
the orchestrator still records one outcome per submitted target, each under
its target's name. -/
theorem C1_fetch_error_isolated (md5 : Bytes → String) (dop : DiffOracle) (wr : WriteOracle)
    (fetch : String → Except String Bytes) (t : Target) (fs : FS) (e : String)
    (targets : List Target) (fs0 : FS) (prog0 : Progress)
    (hf : fetch t.url = Except.error e) :
    update_file md5 dop wr fetch t fs =
      (SyncResult.mk t.name "error" ("更新失败: " ++ e) [], fs) ∧
    ((run_sync md5 dop wr fetch targets fs0 prog0).results).map SyncResult.name =
      targets.map Target.name := by
  constructor
  · unfold update_file
    rw [hf]
  · induction targets generalizing fs0 with
    | nil => rfl
    | cons t2 ts ih => simp [run_sync, update_file_name, ih]

/-- C1 witness: with a network failing exactly target A's URL, the failing
target reports the error and the two-target run records both outcomes. -/
theorem C1_witness :
    fetch_mixed target_A.url = Except.error "boom" ∧
    (update_file md5_model filesyncer_diff write_ok fetch_mixed target_A fs_empty =
      (SyncResult.mk "A" "error" ("更新失败: " ++ "boom") [], fs_empty) ∧
    ((run_sync md5_model filesyncer_diff write_ok fetch_mixed [target_A, target_B]
        fs_empty []).results).map SyncResult.name =
      [target_A, target_B].map Target.name) :=
  ⟨rfl, C1_fetch_error_isolated md5_model filesyncer_diff write_ok fetch_mixed target_A
    fs_empty "boom" [target_A, target_B] fs_empty [] rfl⟩

/-- C2: when the local file's digest equals the fetched content's digest,
update_file answers unchanged with an empty diff, returns the filesystem
untouched, and never invokes the diff computation: the whole outcome is
independent of what that computation would do. -/
theorem C2_digest_match_unchanged (md5 : Bytes → String) (dop dop2 : DiffOracle)
    (wr : WriteOracle) (fetch : String → Except String Bytes) (t : Target) (fs : FS)
    (old new : Bytes)
    (hold : fs t.local_path = some old) (hfetch : fetch t.url = Except.ok new)
    (hmd5 : md5 old = md5 new) :
    update_file md5 dop wr fetch t fs =
      (SyncResult.mk t.name "unchanged" "文件无变化" [], fs) ∧
    update_file md5 dop wr fetch t fs = update_file md5 dop2 wr fetch t fs := by
  have key : ∀ dop3 : DiffOracle,
      update_file md5 dop3 wr fetch t fs =
        (SyncResult.mk t.name "unchanged" "文件无变化" [], fs) := by
    intro dop3
    unfold update_file calculate_md5
    rw [hfetch, hold]
    dsimp only []
    rw [if_pos hmd5]
  exact ⟨key dop, (key dop).trans (key dop2).symm⟩

/-- C2 witness: a file already holding the served bytes is reported
unchanged, with the same outcome under a raising diff oracle. -/
theorem C2_witness :
    (fs_single "f/a.txt" [104]) target_A.local_path = some [104] ∧
    fetch_const [104] target_A.url = Except.ok [104] ∧
    md5_model [104] = md5_model [104] ∧
    (update_file md5_model filesyncer_diff write_ok (fetch_const [104]) target_A
        (fs_single "f/a.txt" [104]) =
      (SyncResult.mk "A" "unchanged" "文件无变化" [], fs_single "f/a.txt" [104]) ∧
    update_file md5_model filesyncer_diff write_ok (fetch_const [104]) target_A
        (fs_single "f/a.txt" [104]) =
      update_file md5_model diff_oracle_raise write_ok (fetch_const [104]) target_A
        (fs_single "f/a.txt" [104])) :=
  ⟨rfl, rfl, rfl, C2_digest_match_unchanged md5_model filesyncer_diff diff_oracle_raise
    write_ok (fetch_const [104]) target_A (fs_single "f/a.txt" [104]) [104] [104]
    rfl rfl rfl⟩

/-- C3: appending a run record always leaves at most 10 entries with the
new record last; appending to a log of exactly 10 drops precisely the
oldest entry and keeps the remaining entries in order, so the formerly
oldest record (when not duplicated elsewhere) is gone. -/
theorem C3_history_cap_fifo (history : List RunRecord) (record : RunRecord) :
    (append_history history record).length ≤ 10 ∧
    (append_history history record).getLast? = some record ∧
    (history.length = 10 →
      append_history history record = history.drop 1 ++ [record] ∧
      ∀ x, history.head? = some x → x ∉ history.drop 1 → x ≠ record →
        x ∉ append_history history record) := by
  unfold append_history
  dsimp only []
  have hlen2 : (history ++ [record]).length = history.length + 1 := by simp
  by_cases hlen : (history ++ [record]).length > 10
  · rw [if_pos hlen]
    refine ⟨?_, ?_, ?_⟩
    · rw [List.length_drop]
      omega
    · rw [hlen2, List.drop_append_of_le_length (by omega)]
      exact List.getLast?_concat _
    · intro h10
      have hkey : history.length + 1 - 10 = 1 := by omega
      have hdrop : (history ++ [record]).drop ((history ++ [record]).length - 10) =
          history.drop 1 ++ [record] := by
        rw [hlen2, hkey, List.drop_append_of_le_length (by omega)]
      refine ⟨hdrop, ?_⟩
      intro x hx hx2 hx3 hmem
      rw [hdrop] at hmem
      rcases List.mem_append.mp hmem with hm | hm
      · exact hx2 hm
      · exact hx3 (by simpa using hm)
  · rw [if_neg hlen]
    refine ⟨by omega, List.getLast?_concat _, ?_⟩
    intro h10
    exfalso
    rw [hlen2, h10] at hlen
    exact hlen (by omega)

/-- C3 witness: appending an eleventh record to a ten-record log keeps ten
records, ends with the new one, equals the tail plus the new record, and no
longer contains the formerly oldest record. -/
theorem C3_witness :
    hist10.length = 10 ∧
    (append_history hist10 (mk_rec "t10")).length ≤ 10 ∧
    (append_history hist10 (mk_rec "t10")).getLast? = some (mk_rec "t10") ∧
    append_history hist10 (mk_rec "t10") = hist10.drop 1 ++ [mk_rec "t10"] ∧
    mk_rec "t0" ∉ append_history hist10 (mk_rec "t10") :=
  ⟨rfl, (C3_history_cap_fifo hist10 (mk_rec "t10")).1,
   (C3_history_cap_fifo hist10 (mk_rec "t10")).2.1,
   ((C3_history_cap_fifo hist10 (mk_rec "t10")).2.2 rfl).1,
   ((C3_history_cap_fifo hist10 (mk_rec "t10")).2.2 rfl).2 (mk_rec "t0") rfl
     (by decide) (by decide)⟩

/-- C4 (amended): an outcome's diff is empty only when nothing was compared:
unchanged outcomes and fetch-failure error outcomes carry an empty diff; an
outcome with status new carries exactly the single placeholder line, not an
empty diff; and an error raised during the write (reachable, for instance,
through makedirs('') on a local_path with no directory part) leaves on the
error outcome the full diff computed before the write — the placeholder or
a true line diff. -/
theorem C4_diff_by_status (md5 : Bytes → String) (dop : DiffOracle) (wr : WriteOracle)
    (fetch : String → Except String Bytes) (t : Target) (fs : FS)
    (hm : ∀ bs, md5 bs ≠ "") :
    (((update_file md5 dop wr fetch t fs).1).status = "unchanged" →
      ((update_file md5 dop wr fetch t fs).1).diff = []) ∧
    (∀ e, fetch t.url = Except.error e →
      ((update_file md5 dop wr fetch t fs).1).status = "error" ∧
      ((update_file md5 dop wr fetch t fs).1).diff = []) ∧
    (((update_file md5 dop wr fetch t fs).1).status = "new" →
      ((update_file md5 dop wr fetch t fs).1).diff = ["文件是新的"]) ∧
    (∀ new_content e2 fs2, fetch t.url = Except.ok new_content →
      calculate_md5 md5 fs t.local_path ≠ md5 new_content →
      wr fs t.local_path new_content = (fs2, Except.error e2) →
      ((update_file md5 dop wr fetch t fs).1).status = "error" ∧
      ((update_file md5 dop wr fetch t fs).1).diff =
        (compare_files (dop t.local_path) fs t.local_path new_content).2) := by
  refine ⟨?_, ?_, ?_, ?_⟩
  · unfold update_file
    cases fetch t.url with
    | error e => exact fun _ => rfl
    | ok new_content =>
      dsimp only []
      split
      · exact fun _ => rfl
      · rcases hwr : wr fs t.local_path new_content with ⟨fs2, wres⟩
        cases wres with
        | ok u =>
          dsimp only []
          split
          · exact fun h => absurd h (ne_of_beq_false rfl)
          · exact fun h => absurd h (ne_of_beq_false rfl)
        | error e2 => exact fun h => absurd h (ne_of_beq_false rfl)
  · intro e he
    unfold update_file
    rw [he]
    exact ⟨rfl, rfl⟩
  · unfold update_file
    cases fetch t.url with
    | error e => exact fun h => absurd h (ne_of_beq_false rfl)
    | ok new_content =>
      dsimp only []
      split
      · exact fun h => absurd h (ne_of_beq_false rfl)
      · rcases hwr : wr fs t.local_path new_content with ⟨fs2, wres⟩
        cases wres with
        | ok u =>
          dsimp only []
          split
          case isTrue hzero =>
            intro _
            have hnone : fs t.local_path = none := by
              cases hfs : fs t.local_path with
              | none => rfl
              | some c =>
                exfalso
                apply hm c
                have hz := hzero
                rw [calculate_md5, hfs] at hz
                exact hz
            show (compare_files (dop t.local_path) fs t.local_path new_content).2 = _
            rw [compare_files, hnone]
          case isFalse hne => exact fun h => absurd h (ne_of_beq_false rfl)
        | error e2 => exact fun h => absurd h (ne_of_beq_false rfl)
  · intro new_content e2 fs2 hf hdig hwr
    unfold update_file
    rw [hf]
    dsimp only []
    rw [if_neg hdig, hwr]
    dsimp only []
    refine ⟨rfl, ?_⟩
    split <;> rfl

/-- C4 is false as stated on two of its three listed statuses: a concrete
first-time sync yields status new with the nonempty single placeholder
diff, and the same sync onto a local_path with no directory part (whose
write raises) yields status error still carrying that nonempty diff. -/
theorem C4_counterexample :
    ((update_file md5_model filesyncer_diff write_ok (fetch_const [104]) target_A
        fs_empty).1).status = "new" ∧
    ((update_file md5_model filesyncer_diff write_ok (fetch_const [104]) target_A
        fs_empty).1).diff = ["文件是新的"] ∧
    ((update_file md5_model filesyncer_diff write_fail_nodir
        (fetch_const [104]) target_C fs_empty).1).status = "error" ∧
    ((update_file md5_model filesyncer_diff write_fail_nodir
        (fetch_const [104]) target_C fs_empty).1).diff = ["文件是新的"] ∧
    (["文件是新的"] : List String) ≠ [] :=
  ⟨rfl, rfl, rfl, rfl, by decide⟩

/-- C4 witness: the amended statement applied to two first-time syncs, one
with a successful write (placeholder diff on the new outcome), one onto a
bare file name whose write raises (the computed diff retained on the error
outcome). -/
theorem C4_witness :
    ((update_file md5_model filesyncer_diff write_ok (fetch_const [104]) target_A
        fs_empty).1).diff = ["文件是新的"] ∧
    (((update_file md5_model filesyncer_diff write_fail_nodir
        (fetch_const [104]) target_C fs_empty).1).status = "error" ∧
     ((update_file md5_model filesyncer_diff write_fail_nodir
        (fetch_const [104]) target_C fs_empty).1).diff =
       (compare_files (filesyncer_diff target_C.local_path) fs_empty
         target_C.local_path [104]).2) :=
  ⟨(C4_diff_by_status md5_model filesyncer_diff write_ok (fetch_const [104]) target_A
      fs_empty md5_model_ne).2.2.1 rfl,
   (C4_diff_by_status md5_model filesyncer_diff write_fail_nodir
      (fetch_const [104]) target_C fs_empty md5_model_ne).2.2.2 [104]
      "[Errno 2] No such file or directory: ''" fs_empty rfl (by decide) rfl⟩

/-- C5 (amended): when the old file reads, the contents differ, and the
decode-and-diff block raises, compare_files reports changed = false (not
true as documented) together with exactly one explanatory line, and
propagates no exception. -/
theorem C5_diff_failure_degrades (dop : Bytes → Bytes → Except String (List String))
    (fs : FS) (old_file : String) (old new : Bytes) (e : String)
    (hread : fs old_file = some old) (hne : old ≠ new)
    (hdop : dop old new = Except.error e) :
    compare_files dop fs old_file new = (false, ["比较文件时出错: " ++ e]) ∧
    (["比较文件时出错: " ++ e] : List String).length = 1 := by
  constructor
  · rw [compare_files, hread]
    dsimp only []
    rw [if_neg hne, hdop]
  · rfl

/-- C5 is false as stated: at a concrete input whose diff computation
raises, compare_files answers changed = false, not changed = true. -/
theorem C5_counterexample :
    (compare_files (diff_raise "decode boom") (fs_single "p.txt" [1]) "p.txt" [2]).1
      = false ∧
    (compare_files (diff_raise "decode boom") (fs_single "p.txt" [1]) "p.txt" [2]).2
      = ["比较文件时出错: decode boom"] :=
  ⟨rfl, rfl⟩

/-- C5 witness: the amended statement applied to that same input. -/
theorem C5_witness :
    (fs_single "p.txt" [1]) "p.txt" = some [1] ∧
    ([1] : Bytes) ≠ [2] ∧
    diff_raise "decode boom" [1] [2] = Except.error "decode boom" ∧
    (compare_files (diff_raise "decode boom") (fs_single "p.txt" [1]) "p.txt" [2] =
        (false, ["比较文件时出错: " ++ "decode boom"]) ∧
      (["比较文件时出错: " ++ "decode boom"] : List String).length = 1) :=
  ⟨rfl, by decide, rfl,
   C5_diff_failure_degrades (diff_raise "decode boom") (fs_single "p.txt" [1])
     "p.txt" [1] [2] "decode boom" rfl (by decide) rfl⟩

/-- C7 (amended): a config file whose content is not syntactically valid
JSON yields the empty list plus one printed diagnostic and no exception;
but content that parses to a bare number, string, boolean or null, or to an
object without a files key, raises an uncaught ValueError instead of
returning the empty list. -/
theorem C7_malformed_config (f e : String) (n : Int) (s : String) (bo : Bool)
    (kvs : List (String × JValue)) (hk : jlookup kvs "files" = none) :
    load_config (ReadOutcome.badJson e) f =
      IOOut.mk (Except.ok (JValue.jarr []))
        ["配置文件 " ++ f ++ " 格式错误: " ++ e] [] ∧
    (load_config (ReadOutcome.parsed (JValue.jnum n)) f).ret =
      Except.error "ValueError: 配置文件格式不正确" ∧
    (load_config (ReadOutcome.parsed (JValue.jstr s)) f).ret =
      Except.error "ValueError: 配置文件格式不正确" ∧
    (load_config (ReadOutcome.parsed (JValue.jbool bo)) f).ret =
      Except.error "ValueError: 配置文件格式不正确" ∧
    (load_config (ReadOutcome.parsed JValue.null) f).ret =
      Except.error "ValueError: 配置文件格式不正确" ∧
    (load_config (ReadOutcome.parsed (JValue.jobj kvs)) f).ret =
      Except.error "ValueError: 配置文件格式不正确" := by
  refine ⟨rfl, rfl, rfl, rfl, rfl, ?_⟩
  rw [load_config, hk]

/-- C7 is false as stated: a config file containing just the number 42 is
malformed as a target list, yet load_config raises an uncaught ValueError
rather than returning the empty list. -/
theorem C7_counterexample :
    (load_config (ReadOutcome.parsed (JValue.jnum 42)) "config.json").ret =
      Except.error "ValueError: 配置文件格式不正确" := rfl

/-- C7 witness: the amended statement at a concrete file name, message and
files-less object. -/
theorem C7_witness :
    jlookup [("a", JValue.null)] "files" = none ∧
    (load_config (ReadOutcome.badJson "x") "config.json" =
        IOOut.mk (Except.ok (JValue.jarr []))
          ["配置文件 " ++ "config.json" ++ " 格式错误: " ++ "x"] [] ∧
      (load_config (ReadOutcome.parsed (JValue.jobj [("a", JValue.null)]))
          "config.json").ret = Except.error "ValueError: 配置文件格式不正确") :=
  ⟨rfl,
   (C7_malformed_config "config.json" "x" 0 "" true [("a", JValue.null)] rfl).1,
   (C7_malformed_config "config.json" "x" 0 "" true [("a", JValue.null)] rfl).2.2.2.2.2⟩

/-- C8 (amended): a missing history file yields the empty log and writes it
out; a syntactically malformed one prints a diagnostic and yields the empty
log; no exception ever escapes; but any successfully parsed JSON value is
returned verbatim, even one lacking the history field. -/
theorem C8_history_load (f e : String) (v : JValue) (input : ReadOutcome) :
    load_sync_history ReadOutcome.missing f =
      IOOut.mk (Except.ok (JValue.jobj [("history", JValue.jarr [])])) []
        [(f, JValue.jobj [("history", JValue.jarr [])])] ∧
    load_sync_history (ReadOutcome.badJson e) f =
      IOOut.mk (Except.ok (JValue.jobj [("history", JValue.jarr [])]))
        ["历史记录文件 " ++ f ++ " 格式错误: " ++ e] [] ∧
    load_sync_history (ReadOutcome.parsed v) f = IOOut.mk (Except.ok v) [] [] ∧
    ∃ r, (load_sync_history input f).ret = Except.ok r := by
  refine ⟨rfl, rfl, rfl, ?_⟩
  cases input <;> exact ⟨_, rfl⟩

/-- C8 is false as stated: a history file holding the valid JSON object
with no fields is returned verbatim, so the caller receives a value with no
history field at all. -/
theorem C8_counterexample :
    (load_sync_history (ReadOutcome.parsed (JValue.jobj [])) "sync_history.json").ret =
      Except.ok (JValue.jobj []) ∧
    jvalue_has_key (JValue.jobj []) "history" = false :=
  ⟨rfl, rfl⟩

/-- C9 (amended): a whole run leaves the shared progress table exactly as
it began; the executed reconciliation path never creates, updates or
finishes a progress entry (the download_file and show_progress machinery
that would maintain them is never invoked by main). -/
theorem C9_progress_untouched (md5 : Bytes → String) (dop : DiffOracle) (wr : WriteOracle)
    (fetch : String → Except String Bytes) (targets : List Target) (fs : FS)
    (prog : Progress) :
    (run_sync md5 dop wr fetch targets fs prog).prog = prog := by
  induction targets generalizing fs with
  | nil => rfl
  | cons t ts ih => simp [run_sync, ih]

/-- C9 is false as stated: a run over one target completes having recorded
its outcome, yet the progress table is still empty: no ProgressEntry for
the target was ever created, let alone finished. -/
theorem C9_counterexample :
    ((run_sync md5_model filesyncer_diff write_ok (fetch_const [104]) [target_A]
        fs_empty []).results).length = 1 ∧
    ((run_sync md5_model filesyncer_diff write_ok (fetch_const [104]) [target_A]
        fs_empty []).prog).lookup "A" = none :=
  ⟨rfl, rfl⟩

/-- C10: update_file's result always carries one of the four final statuses
(never the initial unknown placeholder) and a nonempty message, and the
tallying loop of main consequently never hits a KeyError on a run's
results. -/
theorem C10_status_wellformed (md5 : Bytes → String) (dop : DiffOracle) (wr : WriteOracle)
    (fetch : String → Except String Bytes) (t : Target) (fs : FS)
    (targets : List Target) (fs0 : FS) (prog0 : Progress) (c0 : StatusCounts) :
    (((update_file md5 dop wr fetch t fs).1).status = "unchanged" ∨
     ((update_file md5 dop wr fetch t fs).1).status = "new" ∨
     ((update_file md5 dop wr fetch t fs).1).status = "updated" ∨
     ((update_file md5 dop wr fetch t fs).1).status = "error") ∧
    ((update_file md5 dop wr fetch t fs).1).status ≠ "unknown" ∧
    ((update_file md5 dop wr fetch t fs).1).message ≠ "" ∧
    ∃ c, count_statuses (run_sync md5 dop wr fetch targets fs0 prog0).results c0 =
      Except.ok c := by
  refine ⟨update_file_status_mem md5 dop wr fetch t fs, ?_,
    update_file_message_ne md5 dop wr fetch t fs, ?_⟩
  · rcases update_file_status_mem md5 dop wr fetch t fs with h | h | h | h <;>
      rw [h] <;> decide
  · induction targets generalizing fs0 c0 with
    | nil => exact ⟨c0, rfl⟩
    | cons t2 ts ih =>
      obtain ⟨c2, hc2⟩ :=
        bump_status_ok c0 _ (update_file_status_mem md5 dop wr fetch t2 fs0)
      obtain ⟨c3, hc3⟩ := ih ((update_file md5 dop wr fetch t2 fs0).2) c2
      refine ⟨c3, ?_⟩
      rw [run_sync]
      dsimp only []
      rw [count_statuses, hc2]
      dsimp only []
      exact hc3

/-
Plus-line counting for C6.
-/

/-- Appending after a string with known first character keeps that first
character. -/
theorem data_head_append (s t : String) (c : Char) (cs : List Char)
    (h : s.data = c :: cs) : (s ++ t).data = c :: (cs ++ t.data) := by
  rw [String.data_append, h]
  rfl

/-- The plus test of a string with known first character. -/
theorem plus_test_of_head (s : String) (c : Char) (cs : List Char)
    (h : s.data = c :: cs) : (s.data.head? == some '+') = (c == '+') := by
  rw [h]
  rfl

/-- Lines prefixed with a plus all pass the plus test. -/
theorem countPlus_map_plus (ls : List String) :
    countPlus (ls.map (fun line => "+" ++ line)) = ls.length := by
  rw [countPlus, List.countP_map]
  apply List.countP_eq_length.mpr
  intro line _
  simp only [Function.comp_apply]
  rw [plus_test_of_head _ '+' (line.data) (data_head_append "+" line '+' [] rfl)]
  rfl

/-- Lines prefixed with a character other than plus all fail the plus
test. -/
theorem countPlus_map_other (pre : String) (c : Char) (cs : List Char)
    (hpre : pre.data = c :: cs) (hc : (c == '+') = false) (ls : List String) :
    countPlus (ls.map (fun line => pre ++ line)) = 0 := by
  rw [countPlus, List.countP_map]
  apply List.countP_eq_zero.mpr
  intro line _
  simp only [Function.comp_apply]
  rw [plus_test_of_head _ c (cs ++ line.data) (data_head_append pre line c cs hpre), hc]
  simp

/-- countPlus over a cons. -/
theorem countPlus_cons (line : String) (ls : List String) :
    countPlus (line :: ls) = countPlus ls +
      if (line.data.head? == some '+') = true then 1 else 0 :=
  List.countP_cons _ _ _

/-- countPlus over an append. -/
theorem countPlus_append (l1 l2 : List String) :
    countPlus (l1 ++ l2) = countPlus l1 + countPlus l2 :=
  List.countP_append _ _ _

/-- countPlus over a flattened list of line blocks. -/
theorem countPlus_flatten (ls : List (List String)) :
    countPlus ls.flatten = (ls.map countPlus).sum := by
  induction ls with
  | nil => rfl
  | cons h t ih => rw [List.flatten_cons, countPlus_append, ih, List.map_cons, List.sum_cons]

/-- The lines emitted for one opcode contain exactly its plus
contribution's worth of plus-prefixed lines. -/
theorem countPlus_emit_opcode (a b : List String) (op : Opcode) :
    countPlus (emit_opcode a b op) = opcode_plus_lines b op := by
  rw [emit_opcode, opcode_plus_lines]
  by_cases he : op.tag = "equal"
  · rw [if_pos he, if_neg (by rw [he]; rintro (h | h) <;> exact absurd h (by decide))]
    exact countPlus_map_other " " ' ' [] rfl (by decide) _
  · rw [if_neg he, countPlus_append]
    have h1 : countPlus (if op.tag = "replace" ∨ op.tag = "delete" then
        (pyslice a op.i1 op.i2).map (fun line => "-" ++ line) else []) = 0 := by
      split
      · exact countPlus_map_other "-" '-' [] rfl (by decide) _
      · rfl
    rw [h1]
    by_cases hri : op.tag = "replace" ∨ op.tag = "insert"
    · rw [if_pos hri, if_pos hri, countPlus_map_plus, Nat.zero_add]
    · rw [if_neg hri, if_neg hri]
      rfl

/-- The lines emitted for one group contain exactly its opcodes' total plus
contribution: the range-header line never counts. -/
theorem countPlus_emit_group (a b : List String) (g : List Opcode) :
    countPlus (emit_group a b g) = sum_plus_lines b g := by
  cases g with
  | nil => rfl
  | cons first rest =>
    rw [emit_group]
    rw [countPlus_cons]
    have hd1 := data_head_append "@@ -"
      (format_range_unified first.i1 (((first :: rest).getLastD first)).i2) '@' ['@', ' ', '-'] rfl
    have hd2 := data_head_append _ " +" '@' _ hd1
    have hd3 := data_head_append _
      (format_range_unified first.j1 (((first :: rest).getLastD first)).j2) '@' _ hd2
    have hd4 := data_head_append _ " @@\n" '@' _ hd3
    rw [plus_test_of_head _ '@' _ hd4]
    rw [countPlus_flatten, List.map_map]
    have hmap : List.map (countPlus ∘ emit_opcode a b) (first :: rest) =
        List.map (opcode_plus_lines b) (first :: rest) :=
      List.map_congr_left (fun op _ => countPlus_emit_opcode a b op)
    rw [hmap, sum_plus_lines]
    simp

/-- The plus-prefixed line count of a unified diff: zero for the empty
diff, otherwise one for the +++ file header plus the groups' total plus
contribution. -/
theorem countPlus_unified_diff (a b : List String) (ff tf : String) :
    countPlus (unified_diff a b ff tf) =
      if get_grouped_opcodes 3 a b = [] then 0
      else 1 + sum_plus_lines_grouped b (get_grouped_opcodes 3 a b) := by
  rw [unified_diff]
  cases hg : get_grouped_opcodes 3 a b with
  | nil => rfl
  | cons g gs =>
    dsimp only []
    rw [countPlus_cons, countPlus_cons, countPlus_flatten, List.map_map]
    have hmap : List.map (countPlus ∘ emit_group a b) (g :: gs) =
        List.map (sum_plus_lines b) (g :: gs) :=
      List.map_congr_left (fun g2 _ => countPlus_emit_group a b g2)
    rw [hmap]
    have hm1 := data_head_append "--- " ff '-' ['-', '-', ' '] rfl
    have hm2 := data_head_append _ "\n" '-' _ hm1
    have hp1 := data_head_append "+++ " tf '+' ['+', '+', ' '] rfl
    have hp2 := data_head_append _ "\n" '+' _ hp1
    rw [plus_test_of_head _ '-' _ hm2, plus_test_of_head _ '+' _ hp2]
    rw [if_neg (List.cons_ne_nil g gs)]
    rw [sum_plus_lines_grouped]
    simp
    omega

/-- An equal opcode contributes no plus lines. -/
theorem opcode_plus_lines_equal (b : List String) (op : Opcode) (h : op.tag = "equal") :
    opcode_plus_lines b op = 0 := by
  rw [opcode_plus_lines, if_neg]
  rintro (h2 | h2) <;> rw [h] at h2 <;> exact absurd h2 (by decide)

/-- Plus contribution of the empty opcode list. -/
theorem sum_plus_lines_nil (b : List String) : sum_plus_lines b [] = 0 := rfl

/-- Plus contribution splits over appends of opcode lists. -/
theorem sum_plus_lines_append (b : List String) (l1 l2 : List Opcode) :
    sum_plus_lines b (l1 ++ l2) = sum_plus_lines b l1 + sum_plus_lines b l2 := by
  rw [sum_plus_lines, sum_plus_lines, sum_plus_lines, List.map_append, List.sum_append]

/-- Plus contribution of a cons of opcodes. -/
theorem sum_plus_lines_cons (b : List String) (op : Opcode) (l : List Opcode) :
    sum_plus_lines b (op :: l) = opcode_plus_lines b op + sum_plus_lines b l := by
  rw [sum_plus_lines, sum_plus_lines, List.map_cons, List.sum_cons]

/-- Grouped plus contribution splits over appends of group lists. -/
theorem sum_plus_grouped_append (b : List String) (l1 l2 : List (List Opcode)) :
    sum_plus_lines_grouped b (l1 ++ l2) =
      sum_plus_lines_grouped b l1 + sum_plus_lines_grouped b l2 := by
  rw [sum_plus_lines_grouped, sum_plus_lines_grouped, sum_plus_lines_grouped,
    List.map_append, List.sum_append]

/-- Grouped plus contribution of a single group. -/
theorem sum_plus_grouped_singleton (b : List String) (g : List Opcode) :
    sum_plus_lines_grouped b [g] = sum_plus_lines b g := by
  simp [sum_plus_lines_grouped]

/-- Grouped plus contribution of no groups. -/
theorem sum_plus_grouped_nil (b : List String) : sum_plus_lines_grouped b [] = 0 := rfl

/-- The grouping loop only ever trims or splits equal opcodes and only
drops a trailing all-equal singleton group, so the groups it yields carry
exactly the plus contribution of the pending group and the remaining
codes. -/
theorem sum_plus_grouped_loop (n : Nat) (b : List String) (codes : List Opcode) :
    ∀ (group : List Opcode) (acc : List (List Opcode)),
    sum_plus_lines_grouped b (grouped_loop n codes group acc) =
      sum_plus_lines_grouped b acc + sum_plus_lines b group + sum_plus_lines b codes := by
  induction codes with
  | nil =>
    intro group acc
    rw [grouped_loop]
    split
    case isTrue h =>
      rw [sum_plus_grouped_append, sum_plus_grouped_singleton]
      simp [sum_plus_lines]
    case isFalse h =>
      rcases not_and_or.mp h with h2 | h2
      · have hg : group = [] := not_ne_iff.mp h2
        rw [hg]
        simp [sum_plus_lines]
      · have hg := not_not.mp h2
        obtain ⟨op, hop⟩ := List.length_eq_one.mp hg.1
        have htag : op.tag = "equal" := by
          have h3 := hg.2
          rw [hop] at h3
          exact h3
        rw [hop, sum_plus_lines_cons, opcode_plus_lines_equal b op htag]
        simp [sum_plus_lines]
  | cons c rest ih =>
    intro group acc
    rw [grouped_loop]
    split
    case isTrue h =>
      rw [ih, sum_plus_grouped_append, sum_plus_grouped_singleton,
        sum_plus_lines_append, sum_plus_lines_cons, sum_plus_lines_cons,
        sum_plus_lines_cons, sum_plus_lines_nil,
        opcode_plus_lines_equal b c h.1,
        opcode_plus_lines_equal b (Opcode.mk c.tag (max c.i1 (c.i2 - n)) c.i2
          (max c.j1 (c.j2 - n)) c.j2) h.1,
        opcode_plus_lines_equal b (Opcode.mk c.tag c.i1 (min c.i2 (c.i1 + n)) c.j1
          (min c.j2 (c.j1 + n))) h.1]
      try omega
    case isFalse h =>
      rw [ih, sum_plus_lines_append, sum_plus_lines_cons, sum_plus_lines_cons,
        sum_plus_lines_nil]
      try omega

/-- Trimming the leading context does not change the plus contribution. -/
theorem sum_plus_trim_head (n : Nat) (b : List String) (codes : List Opcode) :
    sum_plus_lines b (trim_head n codes) = sum_plus_lines b codes := by
  cases codes with
  | nil => rfl
  | cons c rest =>
    rw [trim_head]
    split
    case isTrue h =>
      rw [sum_plus_lines_cons, sum_plus_lines_cons,
        opcode_plus_lines_equal b c h,
        opcode_plus_lines_equal b (Opcode.mk c.tag (max c.i1 (c.i2 - n)) c.i2
          (max c.j1 (c.j2 - n)) c.j2) h]
    case isFalse h => rfl

/-- Plus contribution is invariant under reversal. -/
theorem sum_plus_lines_reverse (b : List String) (l : List Opcode) :
    sum_plus_lines b l.reverse = sum_plus_lines b l := by
  rw [sum_plus_lines, sum_plus_lines, List.map_reverse, List.sum_reverse]

/-- Trimming the trailing context does not change the plus contribution. -/
theorem sum_plus_trim_last (n : Nat) (b : List String) (codes : List Opcode) :
    sum_plus_lines b (trim_last n codes) = sum_plus_lines b codes := by
  rw [trim_last]
  cases hr : codes.reverse with
  | nil =>
    have hc : codes = [] := by
      have h2 := congrArg List.reverse hr
      rwa [List.reverse_reverse] at h2
    rw [hc]
  | cons c rest =>
    have hc : codes = (c :: rest).reverse := by
      have h2 := congrArg List.reverse hr
      rwa [List.reverse_reverse] at h2
    rw [sum_plus_lines_reverse, hc, sum_plus_lines_reverse,
      sum_plus_lines_cons, sum_plus_lines_cons]
    split
    case isTrue h =>
      rw [opcode_plus_lines_equal b c h,
        opcode_plus_lines_equal b (Opcode.mk c.tag c.i1 (min c.i2 (c.i1 + n)) c.j1
          (min c.j2 (c.j1 + n))) h]
    case isFalse h => rfl

/-- Grouping with context 3 preserves the total plus contribution of the
opcodes. -/
theorem sum_plus_grouped_eq (a b : List String) :
    sum_plus_lines_grouped b (get_grouped_opcodes 3 a b) =
      sum_plus_lines b (get_opcodes a b) := by
  rw [get_grouped_opcodes]
  rw [sum_plus_grouped_loop, sum_plus_trim_last, sum_plus_trim_head]
  split
  case isTrue h =>
    rw [h, sum_plus_lines_cons, opcode_plus_lines_equal b (Opcode.mk "equal" 0 1 0 1) rfl]
    simp [sum_plus_lines, sum_plus_lines_grouped]
  case isFalse h =>
    simp [sum_plus_lines, sum_plus_lines_grouped]

/-- C6 (amended): for a present old file whose bytes differ from the
fetched bytes, compare_files answers changed = true with the unified diff
of the two decoded line sequences, and that diff's plus-prefixed line count
is zero when the diff is empty (the decoded lines agree) and otherwise one
— the +++ file-header line — plus the number of lines of new lying in the
insert and replace opcodes the matcher computes; it is not in general the
number of positionally differing lines. -/
theorem C6_plus_count (fs : FS) (old_file : String) (old new : Bytes)
    (h1 : fs old_file = some old) (h2 : old ≠ new) :
    compare_files (filesyncer_diff old_file) fs old_file new =
      (true, unified_diff (splitlines_keepends (decode_utf8_ignore old))
        (splitlines_keepends (decode_utf8_ignore new))
        ("a/" ++ basename old_file) ("b/" ++ basename old_file)) ∧
    countPlus (compare_files (filesyncer_diff old_file) fs old_file new).2 =
      (if get_grouped_opcodes 3 (splitlines_keepends (decode_utf8_ignore old))
            (splitlines_keepends (decode_utf8_ignore new)) = [] then 0
       else 1 + sum_plus_lines (splitlines_keepends (decode_utf8_ignore new))
         (get_opcodes (splitlines_keepends (decode_utf8_ignore old))
           (splitlines_keepends (decode_utf8_ignore new)))) := by
  have hcf : compare_files (filesyncer_diff old_file) fs old_file new =
      (true, unified_diff (splitlines_keepends (decode_utf8_ignore old))
        (splitlines_keepends (decode_utf8_ignore new))
        ("a/" ++ basename old_file) ("b/" ++ basename old_file)) := by
    rw [compare_files, h1]
    dsimp only []
    rw [if_neg h2]
    rfl
  refine ⟨hcf, ?_⟩
  rw [hcf]
  dsimp only []
  rw [countPlus_unified_diff, sum_plus_grouped_eq]

/-- C6 is false as stated: with old content a-newline and new content
b-newline, exactly one line of new differs from old at its position, yet
the diff holds two plus-prefixed lines: the +++ header and the replacing
line. -/
theorem C6_counterexample :
    countPlus ((compare_files (filesyncer_diff "f/x.txt")
        (fs_single "f/x.txt" [97, 10]) "f/x.txt" [98, 10]).2) = 2 ∧
    spec_positional_changed_count (splitlines_keepends (decode_utf8_ignore [97, 10]))
      (splitlines_keepends (decode_utf8_ignore [98, 10])) = 1 ∧
    countPlus ((compare_files (filesyncer_diff "f/x.txt")
        (fs_single "f/x.txt" [97, 10]) "f/x.txt" [98, 10]).2) ≠
      spec_positional_changed_count (splitlines_keepends (decode_utf8_ignore [97, 10]))
        (splitlines_keepends (decode_utf8_ignore [98, 10])) := by
  refine ⟨?_, ?_, ?_⟩ <;> decide

/-- C6 witness: the amended statement applied to that same pair of
one-line files. -/
theorem C6_witness :
    (fs_single "f/x.txt" [97, 10]) "f/x.txt" = some [97, 10] ∧
    ([97, 10] : Bytes) ≠ [98, 10] ∧
    (compare_files (filesyncer_diff "f/x.txt") (fs_single "f/x.txt" [97, 10])
        "f/x.txt" [98, 10] =
      (true, unified_diff (splitlines_keepends (decode_utf8_ignore [97, 10]))
        (splitlines_keepends (decode_utf8_ignore [98, 10]))
        ("a/" ++ basename "f/x.txt") ("b/" ++ basename "f/x.txt")) ∧
    countPlus (compare_files (filesyncer_diff "f/x.txt")
        (fs_single "f/x.txt" [97, 10]) "f/x.txt" [98, 10]).2 =
      (if get_grouped_opcodes 3 (splitlines_keepends (decode_utf8_ignore [97, 10]))
            (splitlines_keepends (decode_utf8_ignore [98, 10])) = [] then 0
       else 1 + sum_plus_lines (splitlines_keepends (decode_utf8_ignore [98, 10]))
         (get_opcodes (splitlines_keepends (decode_utf8_ignore [97, 10]))
           (splitlines_keepends (decode_utf8_ignore [98, 10]))))) :=
  ⟨rfl, by decide,
   C6_plus_count (fs_single "f/x.txt" [97, 10]) "f/x.txt" [97, 10] [98, 10] rfl (by decide)⟩
